import Mathlib

/-!
The `runBuild` orchestration of `cmd/hub/cmd/build.go` (hub build).

A shallow embedding of `runBuild`.  The collaborators that live in other
packages (`git.ModifiedActions`, `os.Open`,
`artifacthub.PopulateFromActionMarkdown`, `img.Build`, `path.Join`,
`TinkerbellAction.String`) are fields of an environment `Env`; every call the
function makes to them, and every line it logs, is recorded as an `Event`,
together with what the collaborator answered.  A collaborator may answer
differently depending on everything that happened earlier in the run, so each
of them also receives the events recorded so far.
-/

namespace Hub

/-! ## The program -/

/-- A Go `error` value that is not nil: one reported by a collaborator, or one
built by `errors.Wrap(cause, msg)`. -/
inductive GoError where
  | base (msg : String)
  | wrap (cause : GoError) (msg : String)
deriving DecidableEq

/-- The method `err.Error()`; a wrapped error prints as `msg: cause`. -/
def GoError.Error : GoError → String
  | .base msg => msg
  | .wrap cause msg => msg ++ ": " ++ cause.Error

/-- The outcome of a Go call that returns `(value, error)` or fills a pointer
and returns `error`. -/
inductive Result (α : Type) where
  | ok (val : α)
  | err (e : GoError)
deriving DecidableEq

/-- The struct `buildOptions` of build.go. -/
structure buildOptions where
  context : String
  containerRepo : String
  dryRun : Bool
  push : Bool
  gitRef : String
  platforms : String
  buildkitAddr : String
  noCache : Bool
deriving DecidableEq

/-- The fields of `git.TinkerbellAction` that build.go reads. -/
structure TinkerbellAction where
  Name : String
  Version : String
deriving DecidableEq

/-- The fields of `artifacthub.Manifest` that build.go reads. -/
structure Manifest where
  Name : String
  Version : String
deriving DecidableEq

/-- The struct literal `img.BuildConfig` that build.go fills in. -/
structure BuildConfig where
  Context : String
  Dockerfile : String
  Tag : String
  Platforms : String
  Push : Bool
  BuildKitAddr : String
  NoCache : Bool
deriving DecidableEq

/-- An open `*os.File`, known by the name it was opened under. -/
structure File where
  name : String
deriving DecidableEq

/-- A `context.Context`; `runBuild` only hands it on to `img.Build`. -/
structure Context where
  id : Nat
deriving DecidableEq

/-- What a run of `runBuild` does to the outside, in the order it does it:
each call to a collaborator with the answer it got, and each log line. -/
inductive Event where
  | modifiedActions (actionsPath context gitRef : String)
      (res : Result (List TinkerbellAction))
  | info (msg : String)
  | error (msg : String)
  | osOpen (name : String) (res : Result File)
  | populate (readme : File) (res : Result Manifest)
  | build (ctx : Context) (cfg : BuildConfig) (res : Option GoError)
deriving DecidableEq

/-- The collaborators of `runBuild`.  The first argument of the stateful ones
is the list of events of the run so far. -/
structure Env where
  /-- The call `git.ModifiedActions(out, actionsPath, context, gitRef)`. -/
  ModifiedActions : List Event → String → String → String → Result (List TinkerbellAction)
  /-- The call `os.Open(name)`. -/
  Open : List Event → String → Result File
  /-- The call `artifacthub.PopulateFromActionMarkdown(file, manifest)` on a fresh manifest. -/
  PopulateFromActionMarkdown : List Event → File → Result Manifest
  /-- The call `img.Build(ctx, cfg)`; `none` is a nil error. -/
  Build : List Event → Context → BuildConfig → Option GoError
  /-- The function `path.Join(elem...)`. -/
  Join : List String → String
  /-- The method `action.String()`. -/
  ActionString : TinkerbellAction → String

/-- The body of the `for _, action := range *modifiedActions` loop of the
build branch (build.go lines 73-104).  `hist` holds the events of the run up to
the loop iteration; the result is the events the remaining iterations add and
the error `runBuild` returns (`none` is nil). -/
def buildLoop (env : Env) (buildOpts : buildOptions) (ctx : Context) (opts : buildOptions)
    (actionsPath : String) : List TinkerbellAction → List Event → List Event × Option GoError
  | [], _ => ([], none)
  | action :: rest, hist =>
    let actionContext := env.Join [actionsPath, action.Name, action.Version]
    let readmeName := env.Join [actionContext, "README.md"]
    match env.Open hist readmeName with
    | .err err =>
      ([.osOpen readmeName (.err err)],
        some (.wrap err "error reading the README.md proposal"))
    | .ok readmeFile =>
      let e1 := Event.osOpen readmeName (.ok readmeFile)
      match env.PopulateFromActionMarkdown (hist ++ [e1]) readmeFile with
      | .err err =>
        ([e1, .populate readmeFile (.err err)],
          some (.wrap err "error converting the README.md to an ArtifactHub manifest"))
      | .ok manifest =>
        let e2 := Event.populate readmeFile (.ok manifest)
        let actionDockerfile := env.Join [actionContext, "Dockerfile"]
        let actionTag := opts.containerRepo ++ "/" ++ manifest.Name ++ ":v" ++ manifest.Version
        let cfg : BuildConfig :=
          { Context := actionContext
            Dockerfile := actionDockerfile
            Tag := actionTag
            Platforms := buildOpts.platforms
            Push := opts.push
            BuildKitAddr := opts.buildkitAddr
            NoCache := opts.noCache }
        match env.Build (hist ++ [e1, e2]) ctx cfg with
        | some err =>
          ([e1, e2, .build ctx cfg (some err), .error err.Error], none)
        | none =>
          let r := buildLoop env buildOpts ctx opts actionsPath rest
            (hist ++ [e1, e2, .build ctx cfg none])
          (e1 :: e2 :: .build ctx cfg none :: r.1, r.2)

/-- The function `runBuild(ctx, opts)` of build.go.  `buildOpts` is the
package-level variable of that name, which the body reads at lines 61 and 95.
The result is the events of the run and the returned error (`none` is nil). -/
def runBuild (env : Env) (buildOpts : buildOptions) (ctx : Context) (opts : buildOptions) :
    List Event × Option GoError :=
  let actionsPath := env.Join [opts.context, "actions"]
  match env.ModifiedActions [] actionsPath opts.context opts.gitRef with
  | .err err =>
    ([.modifiedActions actionsPath opts.context opts.gitRef (.err err)],
      some (.wrap err "failed to scan for modified actions"))
  | .ok modifiedActions =>
    let e0 := Event.modifiedActions actionsPath opts.context opts.gitRef (.ok modifiedActions)
    if modifiedActions.length > 0 then
      if buildOpts.dryRun then
        (e0 :: .info "The following actions were modified and need to be rebuilt:" ::
          modifiedActions.map (fun action => .info (env.ActionString action)), none)
      else
        let r := buildLoop env buildOpts ctx opts actionsPath modifiedActions [e0]
        (e0 :: r.1, r.2)
    else
      ([e0, .info "No actions were modified since the provided git reference"], none)

/-- The `RunE` closure of `buildCmd`: `runBuild(cmd.Context(), buildOpts)`. -/
def buildCmdRunE (env : Env) (buildOpts : buildOptions) (ctx : Context) :
    List Event × Option GoError :=
  runBuild env buildOpts ctx buildOpts

/-! ## Reading a run -/

/-- The requests of the `img.Build` calls of a run, in call order. -/
def buildCalls : List Event → List BuildConfig
  | [] => []
  | .build _ cfg _ :: es => cfg :: buildCalls es
  | _ :: es => buildCalls es

/-- The names passed to `os.Open` in a run, in call order. -/
def openCalls : List Event → List String
  | [] => []
  | .osOpen name _ :: es => name :: openCalls es
  | _ :: es => openCalls es

/-- The files handed to `PopulateFromActionMarkdown` in a run, in call order. -/
def populateCalls : List Event → List File
  | [] => []
  | .populate f _ :: es => f :: populateCalls es
  | _ :: es => populateCalls es

/-- The lines written with `log.Info` in a run, in order. -/
def infoLines : List Event → List String
  | [] => []
  | .info msg :: es => msg :: infoLines es
  | _ :: es => infoLines es

/-- The lines written with `log.Error` in a run, in order. -/
def errorLines : List Event → List String
  | [] => []
  | .error msg :: es => msg :: errorLines es
  | _ :: es => errorLines es

/-- Whether a recorded call came back with an error. -/
def Event.failed : Event → Bool
  | .modifiedActions _ _ _ (.err _) => true
  | .osOpen _ (.err _) => true
  | .populate _ (.err _) => true
  | .build _ _ (some _) => true
  | _ => false

/-- The directory of an action as `runBuild` computes it (build.go line 75). -/
def actionContextOf (env : Env) (actionsPath : String) (action : TinkerbellAction) : String :=
  env.Join [actionsPath, action.Name, action.Version]

/-- The name of the README the loop opens for an action (build.go line 77). -/
def readmeOf (env : Env) (actionsPath : String) (action : TinkerbellAction) : String :=
  env.Join [actionContextOf env actionsPath action, "README.md"]

/-- The request `runBuild` sends for an action whose README gave `manifest`
(build.go lines 87-99). -/
def requestOf (env : Env) (buildOpts opts : buildOptions) (actionsPath : String)
    (action : TinkerbellAction) (manifest : Manifest) : BuildConfig :=
  { Context := actionContextOf env actionsPath action
    Dockerfile := env.Join [actionContextOf env actionsPath action, "Dockerfile"]
    Tag := opts.containerRepo ++ "/" ++ manifest.Name ++ ":v" ++ manifest.Version
    Platforms := buildOpts.platforms
    Push := opts.push
    BuildKitAddr := opts.buildkitAddr
    NoCache := opts.noCache }

/-- The shapes a run of the build loop can take, read off `buildLoop`: what it
records for a list of actions and what it returns. -/
inductive LoopRun (env : Env) (g : buildOptions) (ctx : Context) (opts : buildOptions)
    (ap : String) : List TinkerbellAction → List Event → Option GoError → Prop where
  | done : LoopRun env g ctx opts ap [] [] none
  | openErr (a : TinkerbellAction) (rest : List TinkerbellAction) (err : GoError) :
      LoopRun env g ctx opts ap (a :: rest)
        [.osOpen (env.Join [actionContextOf env ap a, "README.md"]) (.err err)]
        (some (.wrap err "error reading the README.md proposal"))
  | populateErr (a : TinkerbellAction) (rest : List TinkerbellAction) (f : File) (err : GoError) :
      LoopRun env g ctx opts ap (a :: rest)
        [.osOpen (env.Join [actionContextOf env ap a, "README.md"]) (.ok f),
          .populate f (.err err)]
        (some (.wrap err "error converting the README.md to an ArtifactHub manifest"))
  | buildErr (a : TinkerbellAction) (rest : List TinkerbellAction) (f : File) (m : Manifest)
      (err : GoError) :
      LoopRun env g ctx opts ap (a :: rest)
        [.osOpen (env.Join [actionContextOf env ap a, "README.md"]) (.ok f),
          .populate f (.ok m), .build ctx (requestOf env g opts ap a m) (some err),
          .error err.Error]
        none
  | next (a : TinkerbellAction) (rest : List TinkerbellAction) (f : File) (m : Manifest)
      (tr : List Event) (res : Option GoError) :
      LoopRun env g ctx opts ap rest tr res →
      LoopRun env g ctx opts ap (a :: rest)
        (.osOpen (env.Join [actionContextOf env ap a, "README.md"]) (.ok f) ::
          .populate f (.ok m) :: .build ctx (requestOf env g opts ap a m) none :: tr)
        res

/-! ## Worked examples: environments and options -/

/-- A table-driven environment for the worked examples: `located` is the answer
of `git.ModifiedActions`, `readmes` lists the files that can be opened with
what their conversion gives, `failing` lists the image tags whose build the
build service rejects.  `Join` separates the elements with a slash, which is
what `path.Join` gives on the clean, non-empty elements used below. -/
def exampleEnv (located : Result (List TinkerbellAction))
    (readmes : List (String × Result Manifest)) (failing : List String) : Env where
  ModifiedActions := fun _ _ _ _ => located
  Open := fun _ name =>
    if readmes.any (fun r => r.1 == name) then .ok ⟨name⟩ else .err (.base "no such file")
  PopulateFromActionMarkdown := fun _ f =>
    match readmes.find? (fun r => r.1 == f.name) with
    | some r => r.2
    | none => .err (.base "not a readme")
  Build := fun _ _ cfg =>
    if failing.contains cfg.Tag then some (.base "build failed") else none
  Join := fun elems => "/".intercalate elems
  ActionString := fun a => a.Name ++ "/" ++ a.Version

/-- The flag defaults of `init`, with the repository at `/repo`. -/
def exampleOpts : buildOptions :=
  { context := "/repo"
    containerRepo := "quay.io/tinkerbell-actions"
    dryRun := false
    push := false
    gitRef := "HEAD^@"
    platforms := "linux/amd64,linux/arm64,linux/arm/v7"
    buildkitAddr := "unix:///run/buildkit/buildkitd.sock"
    noCache := false }

/-- The defaults with `--dry-run`. -/
def dryRunOpts : buildOptions := { exampleOpts with dryRun := true }

/-- The defaults with `--platforms linux/amd64`. -/
def amd64Opts : buildOptions := { exampleOpts with platforms := "linux/amd64" }

def fooAction : TinkerbellAction := ⟨"foo", "v1.0.0"⟩

def barAction : TinkerbellAction := ⟨"bar", "v2.0.0"⟩

def fooReadme : String × Result Manifest :=
  ("/repo/actions/foo/v1.0.0/README.md", .ok ⟨"foo", "1.0.0"⟩)

def barReadme : String × Result Manifest :=
  ("/repo/actions/bar/v2.0.0/README.md", .ok ⟨"bar", "2.0.0"⟩)

/-- The request for `foo` under the default options. -/
def fooRequest : BuildConfig :=
  { Context := "/repo/actions/foo/v1.0.0"
    Dockerfile := "/repo/actions/foo/v1.0.0/Dockerfile"
    Tag := "quay.io/tinkerbell-actions/foo:v1.0.0"
    Platforms := "linux/amd64,linux/arm64,linux/arm/v7"
    Push := false
    BuildKitAddr := "unix:///run/buildkit/buildkitd.sock"
    NoCache := false }

/-- The request for `bar` under the default options. -/
def barRequest : BuildConfig :=
  { Context := "/repo/actions/bar/v2.0.0"
    Dockerfile := "/repo/actions/bar/v2.0.0/Dockerfile"
    Tag := "quay.io/tinkerbell-actions/bar:v2.0.0"
    Platforms := "linux/amd64,linux/arm64,linux/arm/v7"
    Push := false
    BuildKitAddr := "unix:///run/buildkit/buildkitd.sock"
    NoCache := false }

/-- The request for `foo` when its README describes `bar` version `1.0.0`. -/
def mismatchRequest : BuildConfig :=
  { fooRequest with Tag := "quay.io/tinkerbell-actions/bar:v1.0.0" }

/-- The scan event of the examples that locate `acts`. -/
def scanned (acts : List TinkerbellAction) : Event :=
  .modifiedActions "/repo/actions" "/repo" "HEAD^@" (.ok acts)

/-- One changed action, `foo/v1.0.0`, with a good README. -/
def oneEnv : Env := exampleEnv (.ok [fooAction]) [fooReadme] []

/-- Two changed actions with good READMEs. -/
def twoEnv : Env := exampleEnv (.ok [fooAction, barAction]) [fooReadme, barReadme] []

/-- No changed action. -/
def emptyEnv : Env := exampleEnv (.ok []) [] []

/-- The repository comparison fails. -/
def scanFailEnv : Env := exampleEnv (.err (.base "bad revision")) [] []

/-- Two changed actions; the README of the second one, `bar`, is missing. -/
def missingReadmeEnv : Env := exampleEnv (.ok [fooAction, barAction]) [fooReadme] []

/-- Two changed actions with good READMEs; the build of the first one fails. -/
def buildFailEnv : Env :=
  exampleEnv (.ok [fooAction, barAction]) [fooReadme, barReadme]
    ["quay.io/tinkerbell-actions/foo:v1.0.0"]

/-- One changed action, `foo/v1.0.0`, whose README describes `bar` version `1.0.0`. -/
def mismatchEnv : Env :=
  exampleEnv (.ok [fooAction])
    [("/repo/actions/foo/v1.0.0/README.md", .ok ⟨"bar", "1.0.0"⟩)] []

/-! ## The shape of a run -/

/-- One iteration of the build loop ends in exactly one of four ways. -/
theorem buildLoop_cons_cases (env : Env) (g : buildOptions) (ctx : Context) (opts : buildOptions)
    (ap : String) (a : TinkerbellAction) (rest : List TinkerbellAction) (hist : List Event) :
    (∃ err, buildLoop env g ctx opts ap (a :: rest) hist =
        ([.osOpen (env.Join [actionContextOf env ap a, "README.md"]) (.err err)],
          some (.wrap err "error reading the README.md proposal"))) ∨
    (∃ f err, buildLoop env g ctx opts ap (a :: rest) hist =
        ([.osOpen (env.Join [actionContextOf env ap a, "README.md"]) (.ok f),
          .populate f (.err err)],
          some (.wrap err "error converting the README.md to an ArtifactHub manifest"))) ∨
    (∃ f m err, buildLoop env g ctx opts ap (a :: rest) hist =
        ([.osOpen (env.Join [actionContextOf env ap a, "README.md"]) (.ok f),
          .populate f (.ok m), .build ctx (requestOf env g opts ap a m) (some err),
          .error err.Error], none)) ∨
    (∃ f m hist1, buildLoop env g ctx opts ap (a :: rest) hist =
        (.osOpen (env.Join [actionContextOf env ap a, "README.md"]) (.ok f) ::
          .populate f (.ok m) :: .build ctx (requestOf env g opts ap a m) none ::
          (buildLoop env g ctx opts ap rest hist1).1,
          (buildLoop env g ctx opts ap rest hist1).2)) := by
  simp only [buildLoop, actionContextOf, requestOf]
  split
  · exact Or.inl ⟨_, rfl⟩
  · split
    · exact Or.inr (Or.inl ⟨_, _, rfl⟩)
    · split
      · exact Or.inr (Or.inr (Or.inl ⟨_, _, _, rfl⟩))
      · exact Or.inr (Or.inr (Or.inr ⟨_, _, _, rfl⟩))

/-- Whatever the history, what `buildLoop` records and returns is a loop run. -/
theorem buildLoop_run (env : Env) (g : buildOptions) (ctx : Context) (opts : buildOptions)
    (ap : String) (acts : List TinkerbellAction) :
    ∀ hist, LoopRun env g ctx opts ap acts
      (buildLoop env g ctx opts ap acts hist).1 (buildLoop env g ctx opts ap acts hist).2 := by
  induction acts with
  | nil => intro hist; exact LoopRun.done
  | cons a rest ih =>
    intro hist
    rcases buildLoop_cons_cases env g ctx opts ap a rest hist with
      ⟨err, h⟩ | ⟨f, err, h⟩ | ⟨f, m, err, h⟩ | ⟨f, m, hist1, h⟩
    · rw [h]; exact LoopRun.openErr a rest err
    · rw [h]; exact LoopRun.populateErr a rest f err
    · rw [h]; exact LoopRun.buildErr a rest f m err
    · rw [h]; exact LoopRun.next a rest f m _ _ (ih hist1)

/-- The four ways a run of `runBuild` can go: the scan fails, nothing was
located, the located actions are listed, or the build loop runs. -/
theorem runBuild_cases (env : Env) (g : buildOptions) (ctx : Context) (opts : buildOptions) :
    (∃ err, env.ModifiedActions [] (env.Join [opts.context, "actions"]) opts.context opts.gitRef
        = .err err ∧
      runBuild env g ctx opts =
        ([.modifiedActions (env.Join [opts.context, "actions"]) opts.context opts.gitRef
            (.err err)],
          some (.wrap err "failed to scan for modified actions"))) ∨
    (env.ModifiedActions [] (env.Join [opts.context, "actions"]) opts.context opts.gitRef
        = .ok [] ∧
      runBuild env g ctx opts =
        ([.modifiedActions (env.Join [opts.context, "actions"]) opts.context opts.gitRef (.ok []),
          .info "No actions were modified since the provided git reference"], none)) ∨
    (∃ acts, env.ModifiedActions [] (env.Join [opts.context, "actions"]) opts.context opts.gitRef
        = .ok acts ∧ acts ≠ [] ∧ g.dryRun = true ∧
      runBuild env g ctx opts =
        (.modifiedActions (env.Join [opts.context, "actions"]) opts.context opts.gitRef
            (.ok acts) ::
          .info "The following actions were modified and need to be rebuilt:" ::
          acts.map (fun action => .info (env.ActionString action)), none)) ∨
    (∃ acts tr res,
      env.ModifiedActions [] (env.Join [opts.context, "actions"]) opts.context opts.gitRef
        = .ok acts ∧ acts ≠ [] ∧ g.dryRun = false ∧
      LoopRun env g ctx opts (env.Join [opts.context, "actions"]) acts tr res ∧
      runBuild env g ctx opts =
        (.modifiedActions (env.Join [opts.context, "actions"]) opts.context opts.gitRef
            (.ok acts) :: tr, res)) := by
  cases hma : env.ModifiedActions [] (env.Join [opts.context, "actions"]) opts.context opts.gitRef with
  | err e => exact Or.inl ⟨e, rfl, by simp [runBuild, hma]⟩
  | ok acts =>
    cases acts with
    | nil => exact Or.inr (Or.inl ⟨rfl, by simp [runBuild, hma]⟩)
    | cons a rest =>
      cases hd : g.dryRun with
      | true =>
        exact Or.inr (Or.inr (Or.inl ⟨a :: rest, rfl, by simp, rfl, by simp [runBuild, hma, hd]⟩))
      | false =>
        refine Or.inr (Or.inr (Or.inr ⟨a :: rest, _, _, rfl, by simp, rfl,
          buildLoop_run env g ctx opts _ (a :: rest)
            [.modifiedActions (env.Join [opts.context, "actions"]) opts.context opts.gitRef
              (.ok (a :: rest))], by simp [runBuild, hma, hd]⟩))

/-! ## Calls of a run -/

theorem buildCalls_append (l₁ l₂ : List Event) :
    buildCalls (l₁ ++ l₂) = buildCalls l₁ ++ buildCalls l₂ := by
  induction l₁ with
  | nil => rfl
  | cons e l ih => cases e <;> simp [buildCalls, ih]

theorem buildCalls_infos (env : Env) (l : List TinkerbellAction) :
    buildCalls (l.map (fun action => Event.info (env.ActionString action))) = [] := by
  induction l with
  | nil => rfl
  | cons s l ih => simpa [buildCalls] using ih

theorem openCalls_infos (env : Env) (l : List TinkerbellAction) :
    openCalls (l.map (fun action => Event.info (env.ActionString action))) = [] := by
  induction l with
  | nil => rfl
  | cons s l ih => simpa [openCalls] using ih

theorem populateCalls_infos (env : Env) (l : List TinkerbellAction) :
    populateCalls (l.map (fun action => Event.info (env.ActionString action))) = [] := by
  induction l with
  | nil => rfl
  | cons s l ih => simpa [populateCalls] using ih

theorem infoLines_infos (env : Env) (l : List TinkerbellAction) :
    infoLines (l.map (fun action => Event.info (env.ActionString action))) =
      l.map env.ActionString := by
  induction l with
  | nil => rfl
  | cons s l ih => simpa [infoLines] using ih

/-- The build calls of a loop run are those of the first actions of the list,
in order, and the READMEs opened are those of the first actions as well: one
more than the build calls when the run returns an error, as many otherwise. -/
theorem LoopRun.calls {env : Env} {g : buildOptions} {ctx : Context} {opts : buildOptions}
    {ap : String} {acts : List TinkerbellAction} {tr : List Event} {res : Option GoError}
    (h : LoopRun env g ctx opts ap acts tr res) :
    (buildCalls tr).length ≤ acts.length ∧
    (buildCalls tr).map (fun c => c.Context) =
      (acts.take (buildCalls tr).length).map (actionContextOf env ap) ∧
    openCalls tr = (acts.take (openCalls tr).length).map (readmeOf env ap) ∧
    (openCalls tr).length = (buildCalls tr).length + (if res = none then 0 else 1) := by
  induction h with
  | done => simp [buildCalls, openCalls]
  | openErr a rest err => simp [buildCalls, openCalls, readmeOf]
  | populateErr a rest f err => simp [buildCalls, openCalls, readmeOf]
  | buildErr a rest f m err => simp [buildCalls, openCalls, readmeOf, requestOf]
  | next a rest f m tr res _ ih =>
    obtain ⟨h1, h2, h3, h4⟩ := ih
    refine ⟨by simpa [buildCalls] using h1, ?_, ?_, ?_⟩
    · simp only [buildCalls, List.length_cons, List.take_succ_cons, List.map_cons, requestOf]
      rw [h2]
    · simp only [openCalls, List.length_cons, List.take_succ_cons, List.map_cons, readmeOf]
      rw [← readmeOf, ← h3]
    · simp only [buildCalls, openCalls, List.length_cons]
      omega

/-- A README that cannot be opened or converted is the last thing a loop run
records, and the run returns that error wrapped. -/
theorem LoopRun.metadata_error {env : Env} {g : buildOptions} {ctx : Context}
    {opts : buildOptions} {ap : String} {acts : List TinkerbellAction} {tr : List Event}
    {res : Option GoError} (h : LoopRun env g ctx opts ap acts tr res)
    (e : Event) (name : String) (f : File) (err : GoError)
    (he : e = .osOpen name (.err err) ∨ e = .populate f (.err err)) (hmem : e ∈ tr) :
    (∃ pre, tr = pre ++ [e]) ∧
    res = some (.wrap err (if e = .osOpen name (.err err)
      then "error reading the README.md proposal"
      else "error converting the README.md to an ArtifactHub manifest")) := by
  induction h with
  | done => simp at hmem
  | openErr a rest err1 =>
    rcases he with he | he
    · subst he
      simp only [List.mem_singleton, Event.osOpen.injEq, Result.err.injEq] at hmem
      obtain ⟨h1, h2⟩ := hmem
      subst h1; subst h2
      exact ⟨⟨[], rfl⟩, by simp⟩
    · subst he; simp at hmem
  | populateErr a rest f1 err1 =>
    rcases he with he | he
    · subst he; simp at hmem
    · subst he
      simp only [List.mem_cons, List.mem_singleton, Event.populate.injEq, Result.err.injEq,
        false_or, List.not_mem_nil, or_false, reduceCtorEq] at hmem
      obtain ⟨h1, h2⟩ := hmem
      subst h1; subst h2
      exact ⟨⟨[_], rfl⟩, by simp⟩
  | buildErr a rest f1 m err1 =>
    rcases he with he | he <;> subst he <;> simp at hmem
  | next a rest f1 m tr res _ ih =>
    have hmem1 : e ∈ tr := by
      rcases he with he | he <;> subst he <;> simpa using hmem
    obtain ⟨⟨pre, hpre⟩, hres⟩ := ih hmem1
    exact ⟨⟨_ :: _ :: _ :: pre, by rw [hpre]; rfl⟩, hres⟩

/-- A failed build call is followed by the log line of its error and nothing
else, and the loop then returns nil. -/
theorem LoopRun.build_error {env : Env} {g : buildOptions} {ctx : Context}
    {opts : buildOptions} {ap : String} {acts : List TinkerbellAction} {tr : List Event}
    {res : Option GoError} (h : LoopRun env g ctx opts ap acts tr res)
    (c : Context) (cfg : BuildConfig) (err : GoError)
    (hmem : Event.build c cfg (some err) ∈ tr) :
    (∃ pre, tr = pre ++ [.build c cfg (some err), .error err.Error]) ∧
    errorLines tr = [err.Error] ∧ res = none := by
  induction h with
  | done => simp at hmem
  | openErr a rest err1 => simp at hmem
  | populateErr a rest f1 err1 => simp at hmem
  | buildErr a rest f1 m err1 =>
    simp only [List.mem_cons, Event.build.injEq, Option.some.injEq, reduceCtorEq, false_or,
      List.mem_singleton, or_false, List.not_mem_nil] at hmem
    obtain ⟨h1, h2, h3⟩ := hmem
    subst h1; subst h2; subst h3
    exact ⟨⟨[_, _], rfl⟩, by simp [errorLines], rfl⟩
  | next a rest f1 m tr res _ ih =>
    have hmem1 : Event.build c cfg (some err) ∈ tr := by simpa using hmem
    obtain ⟨⟨pre, hpre⟩, herr, hres⟩ := ih hmem1
    exact ⟨⟨_ :: _ :: _ :: pre, by rw [hpre]; rfl⟩, by simpa [errorLines] using herr, hres⟩

/-- A loop run in which no call fails dispatches every action and returns nil. -/
theorem LoopRun.all_ok {env : Env} {g : buildOptions} {ctx : Context}
    {opts : buildOptions} {ap : String} {acts : List TinkerbellAction} {tr : List Event}
    {res : Option GoError} (h : LoopRun env g ctx opts ap acts tr res)
    (hok : ∀ e ∈ tr, e.failed = false) :
    (buildCalls tr).length = acts.length ∧ res = none := by
  induction h with
  | done => simp [buildCalls]
  | openErr a rest err => simp [Event.failed] at hok
  | populateErr a rest f err => simp [Event.failed] at hok
  | buildErr a rest f m err => simp [Event.failed] at hok
  | next a rest f m tr res _ ih =>
    have hok1 : ∀ e ∈ tr, e.failed = false := fun e he => hok e (by simp [he])
    obtain ⟨h1, h2⟩ := ih hok1
    exact ⟨by simp [buildCalls, h1], h2⟩

/-- Every request of a loop run carries the Dockerfile of its own context and
the push, cache and daemon settings of `opts`, and the platforms of the
package-level `buildOpts`. -/
theorem LoopRun.fields {env : Env} {g : buildOptions} {ctx : Context}
    {opts : buildOptions} {ap : String} {acts : List TinkerbellAction} {tr : List Event}
    {res : Option GoError} (h : LoopRun env g ctx opts ap acts tr res) :
    ∀ cfg ∈ buildCalls tr, cfg.Dockerfile = env.Join [cfg.Context, "Dockerfile"] ∧
      cfg.Push = opts.push ∧ cfg.NoCache = opts.noCache ∧
      cfg.BuildKitAddr = opts.buildkitAddr ∧ cfg.Platforms = g.platforms := by
  induction h with
  | done => simp [buildCalls]
  | openErr a rest err => simp [buildCalls]
  | populateErr a rest f err => simp [buildCalls]
  | buildErr a rest f m err => simp [buildCalls, requestOf]
  | next a rest f m tr res _ ih =>
    intro cfg hcfg
    simp only [buildCalls, List.mem_cons] at hcfg
    rcases hcfg with hcfg | hcfg
    · subst hcfg; simp [requestOf]
    · exact ih cfg hcfg

/-- In a loop run every build call comes right after the conversion of the
README opened in the context of that call, and its tag is made from the
manifest that conversion gave. -/
theorem LoopRun.tag {env : Env} {g : buildOptions} {ctx : Context}
    {opts : buildOptions} {ap : String} {acts : List TinkerbellAction} {tr : List Event}
    {res : Option GoError} (h : LoopRun env g ctx opts ap acts tr res) :
    ∀ (pre post : List Event) (c : Context) (cfg : BuildConfig) (r : Option GoError),
      tr = pre ++ .build c cfg r :: post →
      ∃ pre0 f m,
        pre = pre0 ++ [.osOpen (env.Join [cfg.Context, "README.md"]) (.ok f),
          .populate f (.ok m)] ∧
        cfg.Tag = opts.containerRepo ++ "/" ++ m.Name ++ ":v" ++ m.Version := by
  induction h with
  | done => intro pre post c cfg r hdec; simp at hdec
  | openErr a rest err =>
    intro pre post c cfg r hdec
    rcases pre with _ | ⟨p1, pre⟩ <;> simp at hdec
  | populateErr a rest f err =>
    intro pre post c cfg r hdec
    rcases pre with _ | ⟨p1, _ | ⟨p2, pre⟩⟩ <;> simp at hdec
  | buildErr a rest f m err =>
    intro pre post c cfg r hdec
    rcases pre with _ | ⟨p1, _ | ⟨p2, _ | ⟨p3, _ | ⟨p4, pre⟩⟩⟩⟩ <;> simp at hdec
    obtain ⟨h1, h2, ⟨_, h3, _⟩, _⟩ := hdec
    subst h1; subst h2; subst h3
    exact ⟨[], f, m, rfl, rfl⟩
  | next a rest f m tr res _ ih =>
    intro pre post c cfg r hdec
    rcases pre with _ | ⟨p1, _ | ⟨p2, _ | ⟨p3, pre⟩⟩⟩
    · simp at hdec
    · simp at hdec
    · simp only [List.cons_append, List.nil_append, List.cons.injEq, Event.build.injEq] at hdec
      obtain ⟨h1, h2, ⟨_, h3, _⟩, _⟩ := hdec
      subst h1; subst h2; subst h3
      exact ⟨[], f, m, rfl, rfl⟩
    · simp only [List.cons_append, List.cons.injEq] at hdec
      obtain ⟨h1, h2, h3, h4⟩ := hdec
      obtain ⟨pre0, f0, m0, hpre, htag⟩ := ih pre post c cfg r h4
      subst h1; subst h2; subst h3
      exact ⟨_ :: _ :: _ :: pre0, f0, m0, by rw [hpre]; rfl, htag⟩

/-- In a loop run every manifest that a README is converted to is handed to a
build call at once: the file converted is the README of one of the actions, and
the next thing the run does is the build call for that action and that
manifest. -/
theorem LoopRun.dispatched {env : Env} {g : buildOptions} {ctx : Context}
    {opts : buildOptions} {ap : String} {acts : List TinkerbellAction} {tr : List Event}
    {res : Option GoError} (h : LoopRun env g ctx opts ap acts tr res) :
    ∀ (pre post : List Event) (f : File) (m : Manifest),
      tr = pre ++ .populate f (.ok m) :: post →
      ∃ a ∈ acts, ∃ pre0 r post0,
        pre = pre0 ++ [.osOpen (readmeOf env ap a) (.ok f)] ∧
        post = .build ctx (requestOf env g opts ap a m) r :: post0 := by
  induction h with
  | done => intro pre post f0 m0 hdec; simp at hdec
  | openErr a rest err =>
    intro pre post f0 m0 hdec
    rcases pre with _ | ⟨p1, pre⟩ <;> simp at hdec
  | populateErr a rest f err =>
    intro pre post f0 m0 hdec
    rcases pre with _ | ⟨p1, _ | ⟨p2, pre⟩⟩ <;> simp at hdec
  | buildErr a rest f m err =>
    intro pre post f0 m0 hdec
    rcases pre with _ | ⟨p1, _ | ⟨p2, _ | ⟨p3, _ | ⟨p4, pre⟩⟩⟩⟩ <;> simp at hdec
    obtain ⟨h1, ⟨h2, h3⟩, h4⟩ := hdec
    subst h1; subst h2; subst h3; subst h4
    exact ⟨a, by simp, [], some err, [.error err.Error], rfl, rfl⟩
  | next a rest f m tr res _ ih =>
    intro pre post f0 m0 hdec
    rcases pre with _ | ⟨p1, _ | ⟨p2, _ | ⟨p3, pre⟩⟩⟩
    · simp at hdec
    · simp only [List.cons_append, List.nil_append, List.cons.injEq, Event.populate.injEq,
        Result.ok.injEq] at hdec
      obtain ⟨h1, ⟨h2, h3⟩, h4⟩ := hdec
      subst h1; subst h2; subst h3; subst h4
      exact ⟨a, by simp, [], none, tr, rfl, rfl⟩
    · simp at hdec
    · simp only [List.cons_append, List.cons.injEq] at hdec
      obtain ⟨h1, h2, h3, h4⟩ := hdec
      obtain ⟨a0, ha0, pre0, r0, post0, hpre, hpost⟩ := ih pre post f0 m0 h4
      subst h1; subst h2; subst h3
      exact ⟨a0, by simp [ha0], _ :: _ :: _ :: pre0, r0, post0, by rw [hpre]; rfl, hpost⟩

/-- When the dry-run flag of the package-level `buildOpts` is set, a run over a
non-empty located sequence opens no README, converts none, makes no build call
and returns nil.  `buildCmd` passes `buildOpts` itself as `opts`, so this is
what `--dry-run` does from the command line. -/
theorem runBuild_dryRun_quiet (env : Env) (g : buildOptions) (ctx : Context)
    (opts : buildOptions) (actions : List TinkerbellAction) (hdry : g.dryRun = true)
    (hloc : env.ModifiedActions [] (env.Join [opts.context, "actions"]) opts.context opts.gitRef
      = .ok actions) :
    openCalls (runBuild env g ctx opts).1 = [] ∧
    populateCalls (runBuild env g ctx opts).1 = [] ∧
    buildCalls (runBuild env g ctx opts).1 = [] ∧
    (runBuild env g ctx opts).2 = none := by
  rcases runBuild_cases env g ctx opts with
    ⟨err, h0, _⟩ | ⟨_, h⟩ | ⟨acts, _, _, _, h⟩ | ⟨acts, tr, res, _, _, hd, _, _⟩
  · rw [hloc] at h0; cases h0
  · rw [h]; simp [openCalls, populateCalls, buildCalls]
  · rw [h]
    simp [openCalls, populateCalls, buildCalls, openCalls_infos, populateCalls_infos,
      buildCalls_infos]
  · rw [hdry] at hd; cases hd

/-- Every request of a run carries the push, cache and daemon settings of the
`opts` it was given, and the platforms of the package-level `buildOpts`. -/
theorem runBuild_request_settings (env : Env) (g : buildOptions) (ctx : Context)
    (opts : buildOptions) :
    ∀ cfg ∈ buildCalls (runBuild env g ctx opts).1,
      cfg.Push = opts.push ∧ cfg.NoCache = opts.noCache ∧
      cfg.BuildKitAddr = opts.buildkitAddr ∧ cfg.Platforms = g.platforms := by
  rcases runBuild_cases env g ctx opts with
    ⟨err, _, h⟩ | ⟨_, h⟩ | ⟨acts, _, _, _, h⟩ | ⟨acts, tr, res, _, _, _, hloop, h⟩
  · rw [h]; simp [buildCalls]
  · rw [h]; simp [buildCalls]
  · rw [h]; simp [buildCalls, buildCalls_infos]
  · rw [h]
    intro cfg hcfg
    simp only [buildCalls] at hcfg
    exact (hloop.fields cfg hcfg).2

/-! ## The claims -/

/-- C5: when `git.ModifiedActions` reports an error, `runBuild` returns that
error wrapped with "failed to scan for modified actions", and the run opens no
README.md, converts none to a manifest and makes no `img.Build` call, whatever
the options passed and whatever the package-level options are. -/
theorem runBuild_scan_error (env : Env) (g : buildOptions) (ctx : Context)
    (opts : buildOptions) (err : GoError)
    (hscan : env.ModifiedActions [] (env.Join [opts.context, "actions"]) opts.context
      opts.gitRef = .err err) :
    (runBuild env g ctx opts).2 = some (.wrap err "failed to scan for modified actions") ∧
    openCalls (runBuild env g ctx opts).1 = [] ∧
    populateCalls (runBuild env g ctx opts).1 = [] ∧
    buildCalls (runBuild env g ctx opts).1 = [] := by
  simp [runBuild, hscan, openCalls, populateCalls, buildCalls]

theorem runBuild_scan_error_witness :
    scanFailEnv.ModifiedActions [] (scanFailEnv.Join [dryRunOpts.context, "actions"])
      dryRunOpts.context dryRunOpts.gitRef = .err (.base "bad revision") ∧
    ((runBuild scanFailEnv exampleOpts ⟨0⟩ dryRunOpts).2
        = some (.wrap (.base "bad revision") "failed to scan for modified actions") ∧
      openCalls (runBuild scanFailEnv exampleOpts ⟨0⟩ dryRunOpts).1 = [] ∧
      populateCalls (runBuild scanFailEnv exampleOpts ⟨0⟩ dryRunOpts).1 = [] ∧
      buildCalls (runBuild scanFailEnv exampleOpts ⟨0⟩ dryRunOpts).1 = []) :=
  ⟨rfl, runBuild_scan_error scanFailEnv exampleOpts ⟨0⟩ dryRunOpts (.base "bad revision") rfl⟩

/-- C6: when `git.ModifiedActions` succeeds with no action, the run logs "No
actions were modified since the provided git reference" and nothing else, opens
no README.md, makes no `img.Build` call and returns nil, for every value of the
dry-run, push and no-cache options, passed or package-level. -/
theorem runBuild_nothing_located (env : Env) (g : buildOptions) (ctx : Context)
    (opts : buildOptions)
    (hloc : env.ModifiedActions [] (env.Join [opts.context, "actions"]) opts.context opts.gitRef
      = .ok []) :
    infoLines (runBuild env g ctx opts).1
      = ["No actions were modified since the provided git reference"] ∧
    openCalls (runBuild env g ctx opts).1 = [] ∧
    populateCalls (runBuild env g ctx opts).1 = [] ∧
    buildCalls (runBuild env g ctx opts).1 = [] ∧
    (runBuild env g ctx opts).2 = none := by
  simp [runBuild, hloc, infoLines, openCalls, populateCalls, buildCalls]

theorem runBuild_nothing_located_witness :
    emptyEnv.ModifiedActions [] (emptyEnv.Join [exampleOpts.context, "actions"])
      exampleOpts.context exampleOpts.gitRef = .ok [] ∧
    infoLines (runBuild emptyEnv exampleOpts ⟨0⟩ exampleOpts).1
      = ["No actions were modified since the provided git reference"] ∧
    (runBuild emptyEnv exampleOpts ⟨0⟩ exampleOpts).2 = none :=
  ⟨rfl, (runBuild_nothing_located emptyEnv exampleOpts ⟨0⟩ exampleOpts rfl).1,
    (runBuild_nothing_located emptyEnv exampleOpts ⟨0⟩ exampleOpts rfl).2.2.2.2⟩

/-- C7, as the code has it: in a dry-run run (the dry-run flag of `buildOpts`,
the one `runBuild` consults, is set) over a located sequence of n actions, for
n at least 1 the lines logged are the list header followed by
`action.String()` of each action, one line per action in the located order; for
n = 0 the only line logged is "No actions were modified since the provided git
reference", without the header.  In both cases the run then returns nil. -/
theorem runBuild_dryRun_listing (env : Env) (g : buildOptions) (ctx : Context)
    (opts : buildOptions) (actions : List TinkerbellAction) (hdry : g.dryRun = true)
    (hloc : env.ModifiedActions [] (env.Join [opts.context, "actions"]) opts.context opts.gitRef
      = .ok actions) :
    (actions ≠ [] →
      infoLines (runBuild env g ctx opts).1 =
        "The following actions were modified and need to be rebuilt:" ::
          actions.map env.ActionString) ∧
    (actions = [] →
      infoLines (runBuild env g ctx opts).1 =
        ["No actions were modified since the provided git reference"]) ∧
    (runBuild env g ctx opts).2 = none := by
  rcases runBuild_cases env g ctx opts with
    ⟨err, h0, _⟩ | ⟨h0, h⟩ | ⟨acts, h0, hne, _, h⟩ | ⟨acts, tr, res, _, _, hd, _, _⟩
  · rw [hloc] at h0; cases h0
  · rw [hloc] at h0
    cases h0
    rw [h]
    simp [infoLines]
  · rw [hloc] at h0
    cases h0
    rw [h]
    simp [infoLines, infoLines_infos, hne]
  · rw [hdry] at hd; cases hd

theorem runBuild_dryRun_listing_witness :
    dryRunOpts.dryRun = true ∧
    infoLines (runBuild twoEnv dryRunOpts ⟨0⟩ dryRunOpts).1 =
      ["The following actions were modified and need to be rebuilt:",
        "foo/v1.0.0", "bar/v2.0.0"] ∧
    (runBuild twoEnv dryRunOpts ⟨0⟩ dryRunOpts).2 = none :=
  ⟨rfl,
    (runBuild_dryRun_listing twoEnv dryRunOpts ⟨0⟩ dryRunOpts [fooAction, barAction] rfl rfl).1
      (by decide),
    (runBuild_dryRun_listing twoEnv dryRunOpts ⟨0⟩ dryRunOpts [fooAction, barAction] rfl
      rfl).2.2⟩

/-- C7 as stated fails for n = 0: a dry-run run that locates no action logs only
the "No actions were modified" line; the list header is never printed. -/
theorem runBuild_dryRun_empty_no_header :
    dryRunOpts.dryRun = true ∧
    emptyEnv.ModifiedActions [] (emptyEnv.Join [dryRunOpts.context, "actions"])
      dryRunOpts.context dryRunOpts.gitRef = .ok [] ∧
    infoLines (runBuild emptyEnv dryRunOpts ⟨0⟩ dryRunOpts).1 =
      ["No actions were modified since the provided git reference"] ∧
    infoLines (runBuild emptyEnv dryRunOpts ⟨0⟩ dryRunOpts).1 ≠
      "The following actions were modified and need to be rebuilt:" ::
        ([] : List TinkerbellAction).map emptyEnv.ActionString := by
  decide

/-- C2 at its failing input: `runBuild` is handed options whose dryRun field is
true while the package-level `buildOpts` has it false, and one action is
located.  The run opens the README.md, converts it and calls `img.Build`. -/
theorem runBuild_ignores_opts_dryRun :
    dryRunOpts.dryRun = true ∧ exampleOpts.dryRun = false ∧
    openCalls (runBuild oneEnv exampleOpts ⟨0⟩ dryRunOpts).1
      = ["/repo/actions/foo/v1.0.0/README.md"] ∧
    populateCalls (runBuild oneEnv exampleOpts ⟨0⟩ dryRunOpts).1
      = [⟨"/repo/actions/foo/v1.0.0/README.md"⟩] ∧
    buildCalls (runBuild oneEnv exampleOpts ⟨0⟩ dryRunOpts).1 = [fooRequest] := by
  decide

/-- C9 at its failing input: `runBuild` is handed options with platforms
"linux/amd64" while the package-level `buildOpts` holds the default list.  The
request carries the package-level list, not the one of the options passed. -/
theorem runBuild_ignores_opts_platforms :
    amd64Opts.platforms = "linux/amd64" ∧
    (buildCalls (runBuild oneEnv exampleOpts ⟨0⟩ amd64Opts).1).map (fun c => c.Platforms)
      = ["linux/amd64,linux/arm64,linux/arm/v7"] ∧
    (buildCalls (runBuild oneEnv exampleOpts ⟨0⟩ amd64Opts).1).map (fun c => c.Platforms)
      ≠ [amd64Opts.platforms] := by
  decide

/-- C1: every `img.Build` call of a run of `runBuild` comes right after the
conversion of the README.md opened in the build context of that call (the
directory of the action), and the Tag of its request is
`containerRepo ++ "/" ++ manifest.Name ++ ":v" ++ manifest.Version`, where
`containerRepo` is the option passed to the run and `manifest` is what that
conversion gave. -/
theorem runBuild_tag (env : Env) (g : buildOptions) (ctx : Context) (opts : buildOptions)
    (pre post : List Event) (c : Context) (cfg : BuildConfig) (r : Option GoError)
    (hrun : (runBuild env g ctx opts).1 = pre ++ .build c cfg r :: post) :
    ∃ pre0 f m,
      pre = pre0 ++ [.osOpen (env.Join [cfg.Context, "README.md"]) (.ok f),
        .populate f (.ok m)] ∧
      cfg.Tag = opts.containerRepo ++ "/" ++ m.Name ++ ":v" ++ m.Version := by
  rcases runBuild_cases env g ctx opts with
    ⟨err, _, h⟩ | ⟨_, h⟩ | ⟨acts, _, _, _, h⟩ | ⟨acts, tr, res, _, _, _, hloop, h⟩
  · rw [h] at hrun
    rcases pre with _ | ⟨p1, pre⟩ <;> simp at hrun
  · rw [h] at hrun
    rcases pre with _ | ⟨p1, _ | ⟨p2, pre⟩⟩ <;> simp at hrun
  · have hmem : Event.build c cfg r ∈ (runBuild env g ctx opts).1 := by rw [hrun]; simp
    rw [h] at hmem
    simp at hmem
  · rw [h] at hrun
    rcases pre with _ | ⟨p1, pre⟩
    · simp at hrun
    · simp only [List.cons_append, List.cons.injEq] at hrun
      obtain ⟨h1, h2⟩ := hrun
      obtain ⟨pre0, f, m, hpre, htag⟩ := hloop.tag pre post c cfg r h2
      exact ⟨p1 :: pre0, f, m, by rw [hpre]; rfl, htag⟩

theorem runBuild_tag_witness :
    (runBuild oneEnv exampleOpts ⟨0⟩ exampleOpts).1 =
      [scanned [fooAction], .osOpen fooReadme.1 (.ok ⟨fooReadme.1⟩),
        .populate ⟨fooReadme.1⟩ (.ok ⟨"foo", "1.0.0"⟩)] ++ .build ⟨0⟩ fooRequest none :: [] ∧
    fooRequest.Tag = "quay.io/tinkerbell-actions/foo:v1.0.0" ∧
    ∃ pre0 f m,
      [scanned [fooAction], .osOpen fooReadme.1 (.ok ⟨fooReadme.1⟩),
        .populate ⟨fooReadme.1⟩ (.ok ⟨"foo", "1.0.0"⟩)] =
        pre0 ++ [.osOpen (oneEnv.Join [fooRequest.Context, "README.md"]) (.ok f),
          .populate f (.ok m)] ∧
      fooRequest.Tag = exampleOpts.containerRepo ++ "/" ++ m.Name ++ ":v" ++ m.Version :=
  ⟨by decide, rfl,
    runBuild_tag oneEnv exampleOpts ⟨0⟩ exampleOpts _ [] ⟨0⟩ fooRequest none (by decide)⟩

/-- C8, as the code has it: every manifest that `runBuild` derives is
dispatched, whatever name and version it carries.  The file converted is the
README.md opened in the directory of one of the located actions, and the next
thing the run does is the `img.Build` call whose build context is that
directory and whose tag is made from the name and version of the manifest; no
comparison with the Name and Version of the action takes place. -/
theorem runBuild_manifest_dispatched (env : Env) (g : buildOptions) (ctx : Context)
    (opts : buildOptions) (actions : List TinkerbellAction)
    (pre post : List Event) (f : File) (m : Manifest)
    (hloc : env.ModifiedActions [] (env.Join [opts.context, "actions"]) opts.context opts.gitRef
      = .ok actions)
    (hrun : (runBuild env g ctx opts).1 = pre ++ .populate f (.ok m) :: post) :
    ∃ a ∈ actions, ∃ pre0 cfg r post0,
      pre = pre0 ++ [.osOpen (env.Join [cfg.Context, "README.md"]) (.ok f)] ∧
      post = .build ctx cfg r :: post0 ∧
      cfg.Context = env.Join [env.Join [opts.context, "actions"], a.Name, a.Version] ∧
      cfg.Tag = opts.containerRepo ++ "/" ++ m.Name ++ ":v" ++ m.Version := by
  rcases runBuild_cases env g ctx opts with
    ⟨err, h0, _⟩ | ⟨_, h⟩ | ⟨acts, _, _, _, h⟩ | ⟨acts, tr, res, h0, _, _, hloop, h⟩
  · rw [hloc] at h0; cases h0
  · rw [h] at hrun
    rcases pre with _ | ⟨p1, _ | ⟨p2, pre⟩⟩ <;> simp at hrun
  · have hmem : Event.populate f (.ok m) ∈ (runBuild env g ctx opts).1 := by rw [hrun]; simp
    rw [h] at hmem
    simp at hmem
  · rw [hloc] at h0
    cases h0
    rw [h] at hrun
    rcases pre with _ | ⟨p1, pre⟩
    · simp at hrun
    · simp only [List.cons_append, List.cons.injEq] at hrun
      obtain ⟨h1, h2⟩ := hrun
      obtain ⟨a, ha, pre0, r, post0, hpre, hpost⟩ := hloop.dispatched pre post f m h2
      exact ⟨a, ha, p1 :: pre0, _, r, post0, by rw [hpre]; rfl, hpost, rfl, rfl⟩

theorem runBuild_manifest_dispatched_witness :
    (runBuild mismatchEnv exampleOpts ⟨0⟩ exampleOpts).1 =
      [scanned [fooAction], .osOpen fooReadme.1 (.ok ⟨fooReadme.1⟩)] ++
        .populate ⟨fooReadme.1⟩ (.ok ⟨"bar", "1.0.0"⟩) ::
        [.build ⟨0⟩ mismatchRequest none] ∧
    ∃ a ∈ [fooAction], ∃ (pre0 : List Event) (cfg : BuildConfig) (r : Option GoError)
        (post0 : List Event),
      [scanned [fooAction], .osOpen fooReadme.1 (.ok ⟨fooReadme.1⟩)] =
        pre0 ++ [.osOpen (mismatchEnv.Join [cfg.Context, "README.md"]) (.ok ⟨fooReadme.1⟩)] ∧
      [Event.build ⟨0⟩ mismatchRequest none] = .build ⟨0⟩ cfg r :: post0 ∧
      cfg.Context =
        mismatchEnv.Join [mismatchEnv.Join [exampleOpts.context, "actions"], a.Name, a.Version] ∧
      cfg.Tag = exampleOpts.containerRepo ++ "/" ++ "bar" ++ ":v" ++ "1.0.0" :=
  ⟨by decide,
    runBuild_manifest_dispatched mismatchEnv exampleOpts ⟨0⟩ exampleOpts [fooAction]
      [scanned [fooAction], .osOpen fooReadme.1 (.ok ⟨fooReadme.1⟩)]
      [.build ⟨0⟩ mismatchRequest none]
      ⟨fooReadme.1⟩ ⟨"bar", "1.0.0"⟩ rfl (by decide)⟩

/-- C8 as stated fails: the README.md in the directory of action `foo`, version
`v1.0.0`, describes `bar` version `1.0.0`; the run dispatches it all the same,
with the directory of `foo` as build context and a tag made from the manifest. -/
theorem runBuild_dispatches_mismatched_manifest :
    (runBuild mismatchEnv exampleOpts ⟨0⟩ exampleOpts).1 =
      [scanned [fooAction],
        .osOpen "/repo/actions/foo/v1.0.0/README.md" (.ok ⟨"/repo/actions/foo/v1.0.0/README.md"⟩),
        .populate ⟨"/repo/actions/foo/v1.0.0/README.md"⟩ (.ok ⟨"bar", "1.0.0"⟩),
        .build ⟨0⟩
          { Context := "/repo/actions/foo/v1.0.0"
            Dockerfile := "/repo/actions/foo/v1.0.0/Dockerfile"
            Tag := "quay.io/tinkerbell-actions/bar:v1.0.0"
            Platforms := "linux/amd64,linux/arm64,linux/arm/v7"
            Push := false
            BuildKitAddr := "unix:///run/buildkit/buildkitd.sock"
            NoCache := false } none] ∧
    (⟨"bar", "1.0.0"⟩ : Manifest).Name ≠ fooAction.Name ∧
    (⟨"bar", "1.0.0"⟩ : Manifest).Version ≠ fooAction.Version := by
  decide

/-- C3, as the code has it: when, in a run over the located sequence `actions`,
opening the README.md of an action fails, or converting it to a manifest fails,
the run stops there and returns that error wrapped.  The failure is the last
thing the run does, so no `img.Build` call is made for that action or for any
action after it.  The actions before it have each been opened, converted and
dispatched by then: the build contexts of the `img.Build` calls of the run are
the directories of the first k actions, in order, and the READMEs opened are
those of the first k + 1 actions, the last of them the failing one. -/
theorem runBuild_metadata_error (env : Env) (g : buildOptions) (ctx : Context)
    (opts : buildOptions) (actions : List TinkerbellAction)
    (e : Event) (name : String) (f : File) (err : GoError)
    (hloc : env.ModifiedActions [] (env.Join [opts.context, "actions"]) opts.context opts.gitRef
      = .ok actions)
    (he : e = .osOpen name (.err err) ∨ e = .populate f (.err err))
    (hmem : e ∈ (runBuild env g ctx opts).1) :
    (∃ pre, (runBuild env g ctx opts).1 = pre ++ [e]) ∧
    (runBuild env g ctx opts).2 = some (.wrap err (if e = .osOpen name (.err err)
      then "error reading the README.md proposal"
      else "error converting the README.md to an ArtifactHub manifest")) ∧
    (buildCalls (runBuild env g ctx opts).1).length < actions.length ∧
    (buildCalls (runBuild env g ctx opts).1).map (fun c => c.Context) =
      (actions.take (buildCalls (runBuild env g ctx opts).1).length).map
        (actionContextOf env (env.Join [opts.context, "actions"])) ∧
    openCalls (runBuild env g ctx opts).1 =
      (actions.take ((buildCalls (runBuild env g ctx opts).1).length + 1)).map
        (readmeOf env (env.Join [opts.context, "actions"])) := by
  rcases runBuild_cases env g ctx opts with
    ⟨err0, h0, _⟩ | ⟨_, h⟩ | ⟨acts, _, _, _, h⟩ | ⟨acts, tr, res, h0, _, _, hloop, h⟩
  · rw [hloc] at h0; cases h0
  · rw [h] at hmem
    rcases he with he | he <;> subst he <;> simp at hmem
  · rw [h] at hmem
    rcases he with he | he <;> subst he <;> simp at hmem
  · rw [hloc] at h0
    cases h0
    rw [h] at hmem ⊢
    have hmem1 : e ∈ tr := by
      rcases he with he | he <;> subst he <;> simpa using hmem
    obtain ⟨⟨pre, hpre⟩, hres⟩ := hloop.metadata_error e name f err he hmem1
    obtain ⟨_, hctx, hopen, hcount⟩ := hloop.calls
    have hone : (openCalls tr).length = (buildCalls tr).length + 1 := by
      rw [hcount, hres]; simp
    have hlen := congrArg List.length hopen
    simp only [List.length_map, List.length_take] at hlen
    refine ⟨⟨_ :: pre, by rw [hpre]; rfl⟩, hres, ?_, ?_, ?_⟩
    · simp only [buildCalls]
      omega
    · simpa only [buildCalls] using hctx
    · simp only [buildCalls, openCalls]
      rw [← hone]
      exact hopen

theorem runBuild_metadata_error_witness :
    Event.osOpen "/repo/actions/bar/v2.0.0/README.md" (.err (.base "no such file")) ∈
      (runBuild missingReadmeEnv exampleOpts ⟨0⟩ exampleOpts).1 ∧
    (buildCalls (runBuild missingReadmeEnv exampleOpts ⟨0⟩ exampleOpts).1).length <
      [fooAction, barAction].length ∧
    (buildCalls (runBuild missingReadmeEnv exampleOpts ⟨0⟩ exampleOpts).1).map
        (fun c => c.Context) =
      ([fooAction, barAction].take
        (buildCalls (runBuild missingReadmeEnv exampleOpts ⟨0⟩ exampleOpts).1).length).map
        (actionContextOf missingReadmeEnv
          (missingReadmeEnv.Join [exampleOpts.context, "actions"])) :=
  ⟨by decide,
    (runBuild_metadata_error missingReadmeEnv exampleOpts ⟨0⟩ exampleOpts
      [fooAction, barAction] _ "/repo/actions/bar/v2.0.0/README.md" ⟨""⟩
      (.base "no such file") rfl (Or.inl rfl) (by decide)).2.2.1,
    (runBuild_metadata_error missingReadmeEnv exampleOpts ⟨0⟩ exampleOpts
      [fooAction, barAction] _ "/repo/actions/bar/v2.0.0/README.md" ⟨""⟩
      (.base "no such file") rfl (Or.inl rfl) (by decide)).2.2.2.1⟩

/-- C3 as stated fails: in a run that is not a dry run, over `foo` and `bar`
where the README.md of `bar` cannot be opened, the run returns the failure, but
the `img.Build` call for `foo`, earlier in the sequence, has been made. -/
theorem runBuild_builds_before_metadata_error :
    exampleOpts.dryRun = false ∧
    Event.osOpen "/repo/actions/bar/v2.0.0/README.md" (.err (.base "no such file")) ∈
      (runBuild missingReadmeEnv exampleOpts ⟨0⟩ exampleOpts).1 ∧
    (runBuild missingReadmeEnv exampleOpts ⟨0⟩ exampleOpts).2 =
      some (.wrap (.base "no such file") "error reading the README.md proposal") ∧
    buildCalls (runBuild missingReadmeEnv exampleOpts ⟨0⟩ exampleOpts).1 = [fooRequest] ∧
    buildCalls (runBuild missingReadmeEnv exampleOpts ⟨0⟩ exampleOpts).1 ≠ [] := by
  decide

/-- C4: when an `img.Build` call of a run fails (which only happens in a run
that is not a dry run), the error is logged with `log.Error`, that log line is
the last thing the run does, and `runBuild` returns nil.  The failing call is
the last `img.Build` call of the run; the calls made are those for the first
k + 1 located actions, in order, and the READMEs opened are those of the same
k + 1 actions, so no README is opened and no `img.Build` call is made for an
action after the one at position k whose build failed. -/
theorem runBuild_build_error (env : Env) (g : buildOptions) (ctx : Context)
    (opts : buildOptions) (actions : List TinkerbellAction)
    (c : Context) (cfg : BuildConfig) (err : GoError)
    (hloc : env.ModifiedActions [] (env.Join [opts.context, "actions"]) opts.context opts.gitRef
      = .ok actions)
    (hmem : Event.build c cfg (some err) ∈ (runBuild env g ctx opts).1) :
    (∃ pre, (runBuild env g ctx opts).1 = pre ++ [.build c cfg (some err), .error err.Error] ∧
      buildCalls (runBuild env g ctx opts).1 = buildCalls pre ++ [cfg]) ∧
    errorLines (runBuild env g ctx opts).1 = [err.Error] ∧
    (runBuild env g ctx opts).2 = none ∧
    (buildCalls (runBuild env g ctx opts).1).length ≤ actions.length ∧
    (buildCalls (runBuild env g ctx opts).1).map (fun c => c.Context) =
      (actions.take (buildCalls (runBuild env g ctx opts).1).length).map
        (actionContextOf env (env.Join [opts.context, "actions"])) ∧
    openCalls (runBuild env g ctx opts).1 =
      (actions.take (buildCalls (runBuild env g ctx opts).1).length).map
        (readmeOf env (env.Join [opts.context, "actions"])) := by
  rcases runBuild_cases env g ctx opts with
    ⟨err0, h0, _⟩ | ⟨_, h⟩ | ⟨acts, _, _, _, h⟩ | ⟨acts, tr, res, h0, _, _, hloop, h⟩
  · rw [hloc] at h0; cases h0
  · rw [h] at hmem
    simp at hmem
  · rw [h] at hmem
    simp at hmem
  · rw [hloc] at h0
    cases h0
    rw [h] at hmem ⊢
    have hmem1 : Event.build c cfg (some err) ∈ tr := by simpa using hmem
    obtain ⟨⟨pre, hpre⟩, herr, hres⟩ := hloop.build_error c cfg err hmem1
    obtain ⟨hle, hctx, hopen, hcount⟩ := hloop.calls
    have hsame : (openCalls tr).length = (buildCalls tr).length := by
      rw [hcount, hres]; simp
    refine ⟨⟨_ :: pre, by rw [hpre]; rfl, ?_⟩, ?_, hres, ?_, ?_, ?_⟩
    · simp only [buildCalls]
      rw [hpre, buildCalls_append]
      simp [buildCalls]
    · simpa only [errorLines] using herr
    · simpa only [buildCalls] using hle
    · simpa only [buildCalls] using hctx
    · simp only [buildCalls, openCalls]
      rw [← hsame]
      exact hopen

theorem runBuild_build_error_witness :
    Event.build ⟨0⟩ fooRequest (some (.base "build failed")) ∈
      (runBuild buildFailEnv exampleOpts ⟨0⟩ exampleOpts).1 ∧
    errorLines (runBuild buildFailEnv exampleOpts ⟨0⟩ exampleOpts).1 = ["build failed"] ∧
    (runBuild buildFailEnv exampleOpts ⟨0⟩ exampleOpts).2 = none :=
  ⟨by decide,
    (runBuild_build_error buildFailEnv exampleOpts ⟨0⟩ exampleOpts [fooAction, barAction]
      ⟨0⟩ fooRequest (.base "build failed") rfl (by decide)).2.1,
    (runBuild_build_error buildFailEnv exampleOpts ⟨0⟩ exampleOpts [fooAction, barAction]
      ⟨0⟩ fooRequest (.base "build failed") rfl (by decide)).2.2.1⟩

/-- C10: in a run that is not a dry run (the dry-run flag `runBuild` consults is
off), over the located sequence a_1..a_n, in which no README open, manifest
conversion or dispatch fails, the sequence of `img.Build` calls has length
exactly n, its i-th request has as Context the directory of a_i under
`<context>/actions`, as `path.Join` gives it, and as Dockerfile that context
joined with "Dockerfile", and `runBuild` returns nil. -/
theorem runBuild_all_dispatched (env : Env) (g : buildOptions) (ctx : Context)
    (opts : buildOptions) (actions : List TinkerbellAction)
    (hdry : g.dryRun = false)
    (hloc : env.ModifiedActions [] (env.Join [opts.context, "actions"]) opts.context opts.gitRef
      = .ok actions)
    (hok : ∀ e ∈ (runBuild env g ctx opts).1, e.failed = false) :
    (buildCalls (runBuild env g ctx opts).1).length = actions.length ∧
    (buildCalls (runBuild env g ctx opts).1).map (fun c => (c.Context, c.Dockerfile)) =
      actions.map (fun a =>
        (env.Join [env.Join [opts.context, "actions"], a.Name, a.Version],
          env.Join [env.Join [env.Join [opts.context, "actions"], a.Name, a.Version],
            "Dockerfile"])) ∧
    (runBuild env g ctx opts).2 = none := by
  rcases runBuild_cases env g ctx opts with
    ⟨err0, h0, _⟩ | ⟨h0, h⟩ | ⟨acts, _, _, hd, _⟩ | ⟨acts, tr, res, h0, _, _, hloop, h⟩
  · rw [hloc] at h0; cases h0
  · rw [hloc] at h0
    cases h0
    rw [h]
    simp [buildCalls]
  · rw [hdry] at hd; cases hd
  · rw [hloc] at h0
    cases h0
    rw [h] at hok ⊢
    have hok1 : ∀ e ∈ tr, e.failed = false := fun e he => hok e (by simp [he])
    obtain ⟨hlen, hres⟩ := hloop.all_ok hok1
    obtain ⟨_, hctx, _, _⟩ := hloop.calls
    rw [hlen, List.take_length] at hctx
    have hpair : (buildCalls tr).map (fun c => (c.Context, c.Dockerfile)) =
        ((buildCalls tr).map (fun c => c.Context)).map
          (fun x => (x, env.Join [x, "Dockerfile"])) := by
      rw [List.map_map]
      apply List.map_congr_left
      intro cfg hcfg
      simp [(hloop.fields cfg hcfg).1]
    refine ⟨by simpa only [buildCalls] using hlen, ?_, hres⟩
    simp only [buildCalls]
    rw [hpair, hctx, List.map_map]
    rfl

theorem runBuild_all_dispatched_witness :
    (∀ e ∈ (runBuild twoEnv exampleOpts ⟨0⟩ exampleOpts).1, e.failed = false) ∧
    buildCalls (runBuild twoEnv exampleOpts ⟨0⟩ exampleOpts).1 = [fooRequest, barRequest] ∧
    (buildCalls (runBuild twoEnv exampleOpts ⟨0⟩ exampleOpts).1).length
      = [fooAction, barAction].length ∧
    (runBuild twoEnv exampleOpts ⟨0⟩ exampleOpts).2 = none :=
  ⟨by decide, by decide,
    (runBuild_all_dispatched twoEnv exampleOpts ⟨0⟩ exampleOpts [fooAction, barAction]
      rfl rfl (by decide)).1,
    (runBuild_all_dispatched twoEnv exampleOpts ⟨0⟩ exampleOpts [fooAction, barAction]
      rfl rfl (by decide)).2.2⟩

end Hub
